import Mathlib

/-!
# Shallow embedding of the seat-reservation and recruit (group) subsystem

This file embeds, in Lean 4, the backend route handlers of the repository
(`src/backend/src/routes/seats.ts`, `src/backend/src/routes/recruits.ts`,
`src/backend/src/server.ts` socket handlers, `src/backend/src/middleware/auth.ts`
and `src/backend/src/utils/seatCleanup.ts`) over an explicit store state.

The document store (MongoDB via mongoose) is the external collaborator the
design document describes: a collection is a `List` of documents and the
atomic conditional-update primitive (`findOneAndUpdate`) updates the first
document matching a predicate.  `updateMany` updates every matching document.
A `$unset` clears an optional field (`Option.none`); a key carrying the
value `undefined` inside an update object, by contrast, is stripped from
the update by mongoose (v6 and later, as this MongoDB 7 stack requires),
so it writes nothing at all.  Timestamps are integers, document ids and
actor ids are strings or naturals as noted on each structure.
-/

/-- A seat document (collection `Seat`).  `sid` is the Mongo `_id`;
`currentUser` and `reservedUntil` are the optional holder reference and
expiry instant. -/
structure Seat where
  sid : Nat
  seatNumber : String
  room : String
  isAvailable : Bool
  currentUser : Option String
  reservedUntil : Option Int
deriving DecidableEq, Repr

/-- A user document (collection `User`) with the fields the seat routes read,
including the stored bcrypt hash (`password`) and the stored
`plaintextPassword`. -/
structure User where
  uid : String
  username : String
  email : String
  password : String
  plaintextPassword : String
  role : String
deriving DecidableEq, Repr

/-- A seat store: the `Seat` collection as a list of documents. -/
abbrev SeatStore := List Seat

/-- The `updateMany` predicate of the expiry sweep: the seat is taken and
its `reservedUntil` is strictly before `now` (`$lt` on a missing field
matches nothing). -/
def isExpired (now : Int) (s : Seat) : Bool :=
  !s.isAvailable &&
    match s.reservedUntil with
    | some t => decide (t < now)
    | none => false

/-- The per-document effect of the sweep's update
`$set: { isAvailable: true, currentUser: undefined, reservedUntil: undefined }`:
mongoose strips the two `undefined`-valued keys from the update, so only
`isAvailable` is written and the stale holder and expiry stay in place
(unlike the `$unset` the release route and the reserve rollback use). -/
def sweepSeat (now : Int) (s : Seat) : Seat :=
  if isExpired now s then
    { s with isAvailable := true }
  else s

/-- Function `cleanupExpiredReservations` (src/backend/src/utils/seatCleanup.ts and the
`POST /cleanup-expired` route): one bulk conditional update over the whole
collection. -/
def cleanupExpiredReservations (now : Int) (store : SeatStore) : SeatStore :=
  store.map (sweepSeat now)

/-- Number of documents the sweep modifies (`result.modifiedCount`). -/
def cleanupModifiedCount (now : Int) (store : SeatStore) : Nat :=
  store.countP (fun s => isExpired now s)

theorem sweepSeat_not_expired (now : Int) (s : Seat) (h : isExpired now s = false) :
    sweepSeat now s = s := by
  simp [sweepSeat, h]

theorem sweepSeat_expired (now : Int) (s : Seat) (h : isExpired now s = true) :
    sweepSeat now s = { s with isAvailable := true } := by
  simp [sweepSeat, h]

theorem isExpired_sweepSeat (now : Int) (s : Seat) :
    isExpired now (sweepSeat now s) = false := by
  by_cases h : isExpired now s = true
  · simp [sweepSeat_expired now s h, isExpired]
  · simp at h
    simp [sweepSeat_not_expired now s h, h]

theorem sweepSeat_idem (now : Int) (s : Seat) :
    sweepSeat now (sweepSeat now s) = sweepSeat now s :=
  sweepSeat_not_expired now _ (isExpired_sweepSeat now s)

/-- Seat `W01` taken by `u1`, expiry instant `5` (for witnesses). -/
def w01Expired : Seat :=
  { sid := 1, seatNumber := "W01", room := "white", isAvailable := false,
    currentUser := some "u1", reservedUntil := some 5 }

/-- C2, at the failing input: seat `W01` is taken by `u1` with expiry `5`
already past at `now = 10`.  One sweep makes the seat available, but —
because mongoose strips the `undefined`-valued keys from the update — its
`currentUser` and `reservedUntil` remain set afterwards, contrary to the
claim's "holder and expiry fields are unset"; the sweep is nevertheless
idempotent there. -/
theorem cleanup_sweep_leaves_stale_fields :
    cleanupExpiredReservations 10 [w01Expired] =
      [{ w01Expired with isAvailable := true }] ∧
    ({ w01Expired with isAvailable := true } : Seat).currentUser = some "u1" ∧
    ({ w01Expired with isAvailable := true } : Seat).reservedUntil = some 5 ∧
    cleanupExpiredReservations 10 (cleanupExpiredReservations 10 [w01Expired]) =
      cleanupExpiredReservations 10 [w01Expired] := by
  exact ⟨by decide, rfl, rfl, by decide⟩

/-- The store primitive `findOneAndUpdate`: apply `f` to the first document satisfying `p`,
returning the updated document (the routes pass option `new`, so the
post-update document comes back) and the
updated collection; `(none, store)` when nothing matches. -/
def updateFirst (p : Seat → Bool) (f : Seat → Seat) : SeatStore → Option Seat × SeatStore
  | [] => (none, [])
  | s :: rest =>
    if p s then (some (f s), f s :: rest)
    else
      let r := updateFirst p f rest
      (r.1, s :: r.2)

/-- The query `{ currentUser: uid, isAvailable: false }`: seat currently held
by `uid`. -/
def heldBy (uid : String) (s : Seat) : Bool :=
  s.currentUser == some uid && !s.isAvailable

/-- The count `countDocuments({ currentUser: uid, isAvailable: false })`. -/
def countHeld (uid : String) (store : SeatStore) : Nat :=
  store.countP (heldBy uid)

/-- The update of the release route and of the duplicate-reservation
rollback: `$set { isAvailable: true }`, `$unset { currentUser, reservedUntil }`. -/
def clearSeat (s : Seat) : Seat :=
  { s with isAvailable := true, currentUser := none, reservedUntil := none }

theorem updateFirst_of_find?_none (p : Seat → Bool) (f : Seat → Seat)
    (l : SeatStore) (h : l.find? p = none) : updateFirst p f l = (none, l) := by
  induction l with
  | nil => rfl
  | cons s rest ih =>
    by_cases hp : p s = true
    · simp [List.find?_cons_of_pos _ hp] at h
    · have hp' : p s = false := by simpa using hp
      rw [List.find?_cons_of_neg _ (by simp [hp'])] at h
      simp [updateFirst, hp', ih h]

theorem updateFirst_fst_isSome (p : Seat → Bool) (f : Seat → Seat) (l : SeatStore) :
    (updateFirst p f l).1.isSome ↔ ∃ a ∈ l, p a = true := by
  induction l with
  | nil => simp [updateFirst]
  | cons s rest ih =>
    by_cases hp : p s = true
    · simp [updateFirst, hp]
    · have hp' : p s = false := by simpa using hp
      simp [updateFirst, hp', ih]

theorem updateFirst_fst_some (p : Seat → Bool) (f : Seat → Seat) (l : SeatStore)
    (x : Seat) (h : (updateFirst p f l).1 = some x) :
    ∃ a ∈ l, p a = true ∧ x = f a ∧ x ∈ (updateFirst p f l).2 := by
  induction l with
  | nil => simp [updateFirst] at h
  | cons s rest ih =>
    by_cases hp : p s = true
    · simp only [updateFirst, hp, if_pos] at h ⊢
      have hx : x = f s := by simpa using h.symm
      refine ⟨s, by simp, hp, hx, ?_⟩
      simp [hx]
    · have hp' : p s = false := by simpa using hp
      simp only [updateFirst, hp', Bool.false_eq_true, if_false] at h ⊢
      rcases ih h with ⟨a, ha, hpa, hx, hmem⟩
      exact ⟨a, by simp [ha], hpa, hx, by simp [hmem]⟩

theorem countHeld_pos_of_mem (uid : String) (store : SeatStore) (c : Seat)
    (hc : c ∈ store) (hheld : heldBy uid c = true) : 1 ≤ countHeld uid store := by
  have h : 0 < store.countP (heldBy uid) := List.countP_pos_iff.mpr ⟨c, hc, hheld⟩
  exact h

/-- Rolling back (via `findByIdAndUpdate`) the first seat matching a query,
when that seat is currently held by `uid`, reduces the number of seats held
by `uid` by exactly one. -/
theorem countHeld_updateFirst_clear (uid : String) (p : Seat → Bool) (store : SeatStore)
    (c : Seat) (hfind : store.find? p = some c) (hheld : heldBy uid c = true) :
    countHeld uid (updateFirst p clearSeat store).2 = countHeld uid store - 1 := by
  induction store with
  | nil => simp at hfind
  | cons s rest ih =>
    by_cases hp : p s = true
    · rw [List.find?_cons_of_pos _ hp] at hfind
      have hcs : c = s := by simpa using hfind.symm
      subst hcs
      have h1 : (updateFirst p clearSeat (c :: rest)).2 = clearSeat c :: rest := by
        simp [updateFirst, hp]
      have hclear : heldBy uid (clearSeat c) = false := by
        simp [heldBy, clearSeat]
      rw [h1]
      simp [countHeld, List.countP_cons, hclear, hheld]
    · have hp' : p s = false := by simpa using hp
      rw [List.find?_cons_of_neg _ (by simp [hp'])] at hfind
      have hmem : c ∈ rest := List.mem_of_find?_eq_some hfind
      have hpos : 1 ≤ countHeld uid rest := countHeld_pos_of_mem uid rest c hmem hheld
      have hrec := ih hfind
      have h1 : (updateFirst p clearSeat (s :: rest)).2 =
          s :: (updateFirst p clearSeat rest).2 := by
        simp [updateFirst, hp']
      rw [h1]
      simp only [countHeld, List.countP_cons] at hrec hpos ⊢
      omega

theorem updateFirst_fst_of_find? (p : Seat → Bool) (f : Seat → Seat)
    (l : SeatStore) (c : Seat) (h : l.find? p = some c) :
    (updateFirst p f l).1 = some (f c) := by
  induction l with
  | nil => simp at h
  | cons s rest ih =>
    by_cases hp : p s = true
    · rw [List.find?_cons_of_pos _ hp] at h
      have hcs : c = s := by simpa using h.symm
      subst hcs
      simp [updateFirst, hp]
    · have hp' : p s = false := by simpa using hp
      rw [List.find?_cons_of_neg _ (by simp [hp'])] at h
      simp [updateFirst, hp', ih h]

/-- Outcome of `POST /:seatNumber/reserve` (src/backend/src/routes/seats.ts). -/
inductive ReserveResult where
  | validationFailed
  | seatNotFound
  | staffForbidden
  | flagResponse (flag : String)
  | alreadyReserved (currentSeat : String)
  | alreadyOccupied
  | duplicateReservation
  | reserved (seat : Seat)
deriving DecidableEq, Repr

/-- Step (3) of the reserve handler, run after the conditional update
returned the claimed document: `countDocuments` of the actor's held seats;
if more than one, `findByIdAndUpdate` rolls the claimed seat back to
available (unsetting `currentUser` and `reservedUntil`) and the handler
answers with the duplicate-reservation conflict; otherwise the reservation
response is returned.  It takes the store as it stands at that moment, so
interleaved writes by other requests are represented by an arbitrary
`store`. -/
def reserveRecount (uid : String) (claimed : Seat) (store : SeatStore) :
    ReserveResult × SeatStore :=
  if 1 < countHeld uid store then
    (ReserveResult.duplicateReservation,
      (updateFirst (fun s => s.sid == claimed.sid) clearSeat store).2)
  else
    (ReserveResult.reserved claimed, store)

/-- C1: the re-count/compensation step of the claim operation enforces the
single-reservation invariant.  If, when the re-count runs, the claimed
seat (the first document whose `_id` matches) is held by the actor and the
actor holds at most two seats — the two-claim interleaving the design
describes — then afterwards the actor holds exactly one seat; when two were
held the handler returns the duplicate-reservation conflict and the claimed
seat reappears rolled back to available with holder and expiry cleared, and
when only the claimed seat was held the claim succeeds with the store
untouched. -/
theorem reserve_recount_single_reservation (uid : String) (claimed : Seat)
    (store : SeatStore) (c : Seat)
    (hfind : store.find? (fun s => s.sid == claimed.sid) = some c)
    (hheld : heldBy uid c = true)
    (hcnt : countHeld uid store ≤ 2) :
    countHeld uid (reserveRecount uid claimed store).2 = 1 ∧
    (countHeld uid store = 2 →
      (reserveRecount uid claimed store).1 = ReserveResult.duplicateReservation ∧
      clearSeat c ∈ (reserveRecount uid claimed store).2) ∧
    (countHeld uid store = 1 →
      (reserveRecount uid claimed store).1 = ReserveResult.reserved claimed ∧
      (reserveRecount uid claimed store).2 = store) := by
  have hmem : c ∈ store := List.mem_of_find?_eq_some hfind
  have hpos : 1 ≤ countHeld uid store := countHeld_pos_of_mem uid store c hmem hheld
  have hc12 : countHeld uid store = 1 ∨ countHeld uid store = 2 := by omega
  rcases hc12 with h1 | h2
  · have hif : ¬ 1 < countHeld uid store := by omega
    refine ⟨?_, ?_, ?_⟩
    · simp [reserveRecount, hif, h1]
    · intro habs; omega
    · intro _; simp [reserveRecount, hif]
  · have hif : 1 < countHeld uid store := by omega
    have hdrop := countHeld_updateFirst_clear uid (fun s => s.sid == claimed.sid)
      store c hfind hheld
    refine ⟨?_, ?_, ?_⟩
    · simp only [reserveRecount, hif, if_pos]
      omega
    · intro _
      have hfst := updateFirst_fst_of_find? (fun s => s.sid == claimed.sid)
        clearSeat store c hfind
      rcases updateFirst_fst_some (fun s => s.sid == claimed.sid) clearSeat store
        (clearSeat c) hfst with ⟨a, _, _, _, hmem2⟩
      refine ⟨by simp [reserveRecount, hif], ?_⟩
      simpa [reserveRecount, hif] using hmem2
    · intro habs; omega

/-- Seat `W01` held by `u1` (unexpired), for the C1 witness. -/
def seatA1 : Seat :=
  { sid := 1, seatNumber := "W01", room := "white", isAvailable := false,
    currentUser := some "u1", reservedUntil := some 100 }

/-- Seat `W02` held by `u1` (the seat just claimed), for the C1 witness. -/
def seatB2 : Seat :=
  { sid := 2, seatNumber := "W02", room := "white", isAvailable := false,
    currentUser := some "u1", reservedUntil := some 200 }

/-- Witness for C1: with `u1` holding `W01` and having just claimed `W02`,
the re-count step leaves `u1` holding exactly one seat. -/
theorem reserve_recount_single_reservation_witness :
    countHeld "u1" (reserveRecount "u1" seatB2 [seatA1, seatB2]).2 = 1 ∧
    (reserveRecount "u1" seatB2 [seatA1, seatB2]).1 =
      ReserveResult.duplicateReservation := by
  have h := reserve_recount_single_reservation "u1" seatB2 [seatA1, seatB2] seatB2
    (by decide) (by decide) (by decide)
  exact ⟨h.1, (h.2.1 (by decide)).1⟩

/-- The authenticated request data of `POST /:seatNumber/reserve`: route
parameter, validated body field, and the identity the auth middleware bound
on the request (`req.userId`, `req.userRole`, `req.loginPassword`). -/
structure ReserveRequest where
  seatNumber : String
  hours : Int
  userId : String
  userRole : String
  loginPassword : Option String
deriving DecidableEq, Repr

/-- The single atomic conditional update of the claim operation:
`findOneAndUpdate({ seatNumber, isAvailable: true },
{ $set: { isAvailable: false, currentUser, reservedUntil } })`. -/
def reserveCondUpdate (seatNumber uid : String) (untilT : Int) (store : SeatStore) :
    Option Seat × SeatStore :=
  updateFirst (fun s => s.seatNumber == seatNumber && s.isAvailable)
    (fun s =>
      { s with
        isAvailable := false
        currentUser := some uid
        reservedUntil := some untilT })
    store

/-- What the reserve handler does with the conditional update's outcome: on
no match, a follow-up `findOne({ seatNumber })` distinguishes a missing seat
(404) from an occupied one (conflict); on success the re-count/compensation
step runs. -/
def reserveAfterUpdate (uid seatNumber : String) (upd : Option Seat × SeatStore) :
    ReserveResult × SeatStore :=
  match upd.1 with
  | none =>
    if (upd.2.find? (fun s => s.seatNumber == seatNumber)).isNone then
      (ReserveResult.seatNotFound, upd.2)
    else
      (ReserveResult.alreadyOccupied, upd.2)
  | some seat => reserveRecount uid seat upd.2

/-- Route `POST /:seatNumber/reserve` (src/backend/src/routes/seats.ts), run
sequentially against one store state: validate `hours`, look the seat up,
reject staff-room seats for non-admins, take the backdoor flag branch when
the caller is `D5ngo2s_ID` with the matching stored plaintext password,
reject an actor who already holds a seat, then perform the conditional
update followed by `reserveAfterUpdate`.  `flagFile` stands for the
contents of `/var/ctf/flag`. -/
def reserveHandler (flagFile : String) (users : List User) (req : ReserveRequest)
    (now : Int) (store : SeatStore) : ReserveResult × SeatStore :=
  if !(1 ≤ req.hours && req.hours ≤ 8) then
    (ReserveResult.validationFailed, store)
  else
    match store.find? (fun s => s.seatNumber == req.seatNumber) with
    | none => (ReserveResult.seatNotFound, store)
    | some seatInfo =>
      if seatInfo.room == "staff" && req.userRole != "admin" then
        (ReserveResult.staffForbidden, store)
      else if (match users.find? (fun u => u.uid == req.userId) with
               | some u => u.username == "D5ngo2s_ID" &&
                   req.loginPassword == some u.plaintextPassword
               | none => false) then
        (ReserveResult.flagResponse flagFile, store)
      else
        match store.find? (heldBy req.userId) with
        | some existing => (ReserveResult.alreadyReserved existing.seatNumber, store)
        | none =>
          reserveAfterUpdate req.userId req.seatNumber
            (reserveCondUpdate req.seatNumber req.userId (now + req.hours) store)

/-- C5: when the conditional update of a claim matches no document (no seat
with the requested number is available), the handler leaves the store
unchanged and the follow-up read yields the not-found error exactly when no
seat with that number exists, and the already-occupied conflict exactly when
such a seat exists (and is then necessarily taken). -/
theorem reserve_no_match_distinguishes (uid seatNumber : String) (untilT : Int)
    (store : SeatStore)
    (hnone : store.find? (fun s => s.seatNumber == seatNumber && s.isAvailable) = none) :
    (reserveAfterUpdate uid seatNumber
        (reserveCondUpdate seatNumber uid untilT store)).2 = store ∧
    ((reserveAfterUpdate uid seatNumber
        (reserveCondUpdate seatNumber uid untilT store)).1 = ReserveResult.seatNotFound ↔
      store.find? (fun s => s.seatNumber == seatNumber) = none) ∧
    ((reserveAfterUpdate uid seatNumber
        (reserveCondUpdate seatNumber uid untilT store)).1 = ReserveResult.alreadyOccupied ↔
      ∃ s ∈ store, s.seatNumber = seatNumber) ∧
    (∀ s ∈ store, s.seatNumber = seatNumber → s.isAvailable = false) := by
  have hupd : reserveCondUpdate seatNumber uid untilT store = (none, store) := by
    unfold reserveCondUpdate
    exact updateFirst_of_find?_none _ _ store hnone
  have havail : ∀ s ∈ store, s.seatNumber = seatNumber → s.isAvailable = false := by
    intro s hs hnum
    by_contra hav
    have hav' : s.isAvailable = true := by
      cases h : s.isAvailable
      · exact absurd h hav
      · rfl
    have : store.find? (fun s => s.seatNumber == seatNumber && s.isAvailable) ≠ none := by
      intro habs
      have hnotmem := List.find?_eq_none.mp habs s hs
      simp [hnum, hav'] at hnotmem
    exact this hnone
  rw [hupd]
  unfold reserveAfterUpdate
  by_cases hfind : store.find? (fun s => s.seatNumber == seatNumber) = none
  · refine ⟨by simp [hfind], by simp [hfind], ?_, havail⟩
    simp only [hfind, Option.isNone_none, if_pos]
    constructor
    · intro habs; cases habs
    · rintro ⟨s, hs, hnum⟩
      have := List.find?_eq_none.mp hfind s hs
      simp [hnum] at this
  · have hsome : (store.find? (fun s => s.seatNumber == seatNumber)).isSome := by
      cases h : store.find? (fun s => s.seatNumber == seatNumber)
      · exact absurd h hfind
      · simp
    have hnn : ¬ (store.find? (fun s => s.seatNumber == seatNumber)).isNone = true := by
      simp only [Option.isNone_iff_eq_none]
      exact hfind
    refine ⟨by simp [hnn], by simp [hnn, hfind], ?_, havail⟩
    simp only [hnn, if_neg, if_false]
    constructor
    · intro _
      rcases Option.isSome_iff_exists.mp hsome with ⟨s, hs⟩
      exact ⟨s, List.mem_of_find?_eq_some hs, by simpa using List.find?_some hs⟩
    · intro _; rfl

/-- Witness for C5: user `u2` claiming `W01` while `u1` holds it — the
conditional update matches nothing, the store is unchanged and the handler
answers with the already-occupied conflict. -/
theorem reserve_no_match_distinguishes_witness :
    (reserveAfterUpdate "u2" "W01" (reserveCondUpdate "W01" "u2" 50 [seatA1])).2 =
      [seatA1] ∧
    (reserveAfterUpdate "u2" "W01" (reserveCondUpdate "W01" "u2" 50 [seatA1])).1 =
      ReserveResult.alreadyOccupied := by
  have h := reserve_no_match_distinguishes "u2" "W01" 50 [seatA1] (by decide)
  exact ⟨h.1, h.2.2.1.mpr ⟨seatA1, by decide, rfl⟩⟩

/-- C8: the backdoor branch of the claim operation.  Whenever the request is
validly formed, the seat exists and passes the staff-room check, and the
authenticated caller is the stored user `D5ngo2s_ID` presenting a token
`loginPassword` equal to that user's stored `plaintextPassword`, the handler
returns the contents of `/var/ctf/flag` and performs no store mutation and
no reservation. -/
theorem reserve_flag_branch (flagFile : String) (users : List User)
    (req : ReserveRequest) (now : Int) (store : SeatStore) (seatInfo : Seat) (u : User)
    (hval : 1 ≤ req.hours ∧ req.hours ≤ 8)
    (hseat : store.find? (fun s => s.seatNumber == req.seatNumber) = some seatInfo)
    (hstaff : (seatInfo.room == "staff" && req.userRole != "admin") = false)
    (huser : users.find? (fun v => v.uid == req.userId) = some u)
    (hname : u.username = "D5ngo2s_ID")
    (hpw : req.loginPassword = some u.plaintextPassword) :
    reserveHandler flagFile users req now store =
      (ReserveResult.flagResponse flagFile, store) := by
  simp [reserveHandler, hval.1, hval.2, hseat, hstaff, huser, hname, hpw]

/-- The planted user whose plaintext password unlocks the flag branch (for
the C8 witness). -/
def dongoUser : User :=
  { uid := "u9", username := "D5ngo2s_ID", email := "d@example.com",
    password := "bcrypt-hash", plaintextPassword := "pw", role := "user" }

/-- A free seat `W01` (for witnesses). -/
def w01Free : Seat :=
  { sid := 7, seatNumber := "W01", room := "white", isAvailable := true,
    currentUser := none, reservedUntil := none }

/-- The concrete reserve request of the C8 witness. -/
def dongoReq : ReserveRequest :=
  { seatNumber := "W01", hours := 2, userId := "u9", userRole := "user",
    loginPassword := some "pw" }

/-- Witness for C8: the concrete authenticated request of `dongoReq` against
a store holding only the free seat `W01` returns the flag and leaves the
store untouched. -/
theorem reserve_flag_branch_witness :
    reserveHandler "FLAG" [dongoUser] dongoReq 0 [w01Free] =
      (ReserveResult.flagResponse "FLAG", [w01Free]) :=
  reserve_flag_branch "FLAG" [dongoUser] dongoReq 0 [w01Free] w01Free dongoUser
    (by decide) (by decide) (by decide) (by decide) rfl rfl

/-- Outcome of `POST /:seatNumber/release`. -/
inductive ReleaseResult where
  | seatNotFound
  | notAuthorized
  | released (seat : Seat)
deriving DecidableEq, Repr

/-- The conditional-update query of the release route: seat number matches,
seat is taken, and — unless the caller's role is `admin` — the caller is the
current holder. -/
def releaseMatch (uid role seatNumber : String) (s : Seat) : Bool :=
  s.seatNumber == seatNumber && !s.isAvailable &&
    (role == "admin" || s.currentUser == some uid)

/-- Route `POST /:seatNumber/release` (src/backend/src/routes/seats.ts): one
atomic `findOneAndUpdate` with the query above, setting `isAvailable := true`
and unsetting `currentUser`/`reservedUntil`; when nothing matches, a
follow-up read distinguishes a missing seat from an unauthorized or
not-occupied one. -/
def releaseHandler (uid role seatNumber : String) (store : SeatStore) :
    ReleaseResult × SeatStore :=
  match (updateFirst (releaseMatch uid role seatNumber) clearSeat store).1 with
  | some seat =>
    (ReleaseResult.released seat,
      (updateFirst (releaseMatch uid role seatNumber) clearSeat store).2)
  | none =>
    if (store.find? (fun s => s.seatNumber == seatNumber)).isNone then
      (ReleaseResult.seatNotFound, store)
    else
      (ReleaseResult.notAuthorized, store)

theorem releaseMatch_iff (uid role seatNumber : String) (s : Seat) :
    releaseMatch uid role seatNumber s = true ↔
      (s.seatNumber = seatNumber ∧ s.isAvailable = false ∧
        (role = "admin" ∨ s.currentUser = some uid)) := by
  simp [releaseMatch, and_assoc]

/-- C6: the release operation.  A non-admin caller succeeds exactly when some
seat with the requested number is currently taken and held by the caller; an
admin succeeds exactly when some seat with that number is taken; success
comes from the single conditional update and yields the seat set available
with holder and expiry cleared, present in the resulting store; and when the
update matched nothing the handler answers seat-not-found exactly when no
seat with that number exists, and not-authorized exactly when such a seat
exists but no seat satisfies the release query. -/
theorem release_authorization_and_effect (uid role seatNumber : String)
    (store : SeatStore) :
    (role ≠ "admin" →
      ((∃ s, (releaseHandler uid role seatNumber store).1 = ReleaseResult.released s) ↔
        ∃ a ∈ store, a.seatNumber = seatNumber ∧ a.isAvailable = false ∧
          a.currentUser = some uid)) ∧
    (role = "admin" →
      ((∃ s, (releaseHandler uid role seatNumber store).1 = ReleaseResult.released s) ↔
        ∃ a ∈ store, a.seatNumber = seatNumber ∧ a.isAvailable = false)) ∧
    (∀ s, (releaseHandler uid role seatNumber store).1 = ReleaseResult.released s →
      s.isAvailable = true ∧ s.currentUser = none ∧ s.reservedUntil = none ∧
      s ∈ (releaseHandler uid role seatNumber store).2 ∧
      ∃ a ∈ store, releaseMatch uid role seatNumber a = true ∧ s = clearSeat a) ∧
    ((releaseHandler uid role seatNumber store).1 = ReleaseResult.seatNotFound ↔
      ∀ a ∈ store, ¬ a.seatNumber = seatNumber) ∧
    ((releaseHandler uid role seatNumber store).1 = ReleaseResult.notAuthorized ↔
      ((∃ a ∈ store, a.seatNumber = seatNumber) ∧
        ¬ ∃ a ∈ store, a.seatNumber = seatNumber ∧ a.isAvailable = false ∧
          (role = "admin" ∨ a.currentUser = some uid))) := by
  cases hu : (updateFirst (releaseMatch uid role seatNumber) clearSeat store).1 with
  | none =>
    have hne : ¬ ∃ a ∈ store, releaseMatch uid role seatNumber a = true := by
      rintro ⟨a, ha, hpa⟩
      have hs := (updateFirst_fst_isSome (releaseMatch uid role seatNumber)
        clearSeat store).mpr ⟨a, ha, hpa⟩
      rw [hu] at hs
      simp at hs
    have hneM : ¬ ∃ a ∈ store, a.seatNumber = seatNumber ∧ a.isAvailable = false ∧
        (role = "admin" ∨ a.currentUser = some uid) := by
      rintro ⟨a, ha, hfields⟩
      exact hne ⟨a, ha, (releaseMatch_iff uid role seatNumber a).mpr hfields⟩
    by_cases hf : store.find? (fun s => s.seatNumber == seatNumber) = none
    · have hres : releaseHandler uid role seatNumber store =
          (ReleaseResult.seatNotFound, store) := by
        simp [releaseHandler, hu, hf]
      have hnonum : ∀ a ∈ store, ¬ a.seatNumber = seatNumber := by
        intro a ha hnum
        have hnn := List.find?_eq_none.mp hf a ha
        simp [hnum] at hnn
      refine ⟨?_, ?_, ?_, ?_, ?_⟩
      · intro hrole
        constructor
        · rintro ⟨s, hs⟩
          rw [hres] at hs
          cases hs
        · rintro ⟨a, ha, h1, h2, h3⟩
          exact absurd ⟨a, ha, h1, h2, Or.inr h3⟩ hneM
      · intro hrole
        constructor
        · rintro ⟨s, hs⟩
          rw [hres] at hs
          cases hs
        · rintro ⟨a, ha, h1, h2⟩
          exact absurd ⟨a, ha, h1, h2, Or.inl hrole⟩ hneM
      · intro s hs
        rw [hres] at hs
        cases hs
      · rw [hres]
        exact ⟨fun _ => hnonum, fun _ => rfl⟩
      · rw [hres]
        constructor
        · intro habs
          simp at habs
        · rintro ⟨⟨a, ha, hnum⟩, _⟩
          exact ((hnonum a ha) hnum).elim
    · have hfs : ∃ s0, store.find? (fun s => s.seatNumber == seatNumber) = some s0 := by
        cases hx : store.find? (fun s => s.seatNumber == seatNumber) with
        | none => exact absurd hx hf
        | some s0 => exact ⟨s0, rfl⟩
      rcases hfs with ⟨s0, hs0⟩
      have hs0mem : s0 ∈ store := List.mem_of_find?_eq_some hs0
      have hs0num : s0.seatNumber = seatNumber := by
        have := List.find?_some hs0
        simpa using this
      have hres : releaseHandler uid role seatNumber store =
          (ReleaseResult.notAuthorized, store) := by
        simp [releaseHandler, hu, hs0]
      refine ⟨?_, ?_, ?_, ?_, ?_⟩
      · intro hrole
        constructor
        · rintro ⟨s, hs⟩
          rw [hres] at hs
          cases hs
        · rintro ⟨a, ha, h1, h2, h3⟩
          exact absurd ⟨a, ha, h1, h2, Or.inr h3⟩ hneM
      · intro hrole
        constructor
        · rintro ⟨s, hs⟩
          rw [hres] at hs
          cases hs
        · rintro ⟨a, ha, h1, h2⟩
          exact absurd ⟨a, ha, h1, h2, Or.inl hrole⟩ hneM
      · intro s hs
        rw [hres] at hs
        cases hs
      · rw [hres]
        constructor
        · intro habs
          simp at habs
        · intro hall
          exact ((hall s0 hs0mem) hs0num).elim
      · rw [hres]
        exact ⟨fun _ => ⟨⟨s0, hs0mem, hs0num⟩, hneM⟩, fun _ => rfl⟩
  | some seat =>
    have hspec := updateFirst_fst_some (releaseMatch uid role seatNumber)
      clearSeat store seat hu
    rcases hspec with ⟨a, ha, hpa, hseat, hmem⟩
    have hres : releaseHandler uid role seatNumber store =
        (ReleaseResult.released seat,
          (updateFirst (releaseMatch uid role seatNumber) clearSeat store).2) := by
      simp [releaseHandler, hu]
    have hfields := (releaseMatch_iff uid role seatNumber a).mp hpa
    refine ⟨?_, ?_, ?_, ?_, ?_⟩
    · intro hrole
      constructor
      · rintro ⟨s, hs⟩
        rcases hfields with ⟨h1, h2, h3⟩
        rcases h3 with h3 | h3
        · exact absurd h3 hrole
        · exact ⟨a, ha, h1, h2, h3⟩
      · intro _
        refine ⟨seat, ?_⟩
        rw [hres]
    · intro hrole
      constructor
      · rintro ⟨s, hs⟩
        rcases hfields with ⟨h1, h2, _⟩
        exact ⟨a, ha, h1, h2⟩
      · intro _
        refine ⟨seat, ?_⟩
        rw [hres]
    · intro s hs
      rw [hres] at hs
      have hs' : ReleaseResult.released seat = ReleaseResult.released s := hs
      have hseq : s = seat := by
        injection hs' with h
        exact h.symm
      subst hseq
      refine ⟨by simp [hseat, clearSeat], by simp [hseat, clearSeat],
        by simp [hseat, clearSeat], ?_, ⟨a, ha, hpa, hseat⟩⟩
      rw [hres]
      exact hmem
    · rw [hres]
      constructor
      · intro habs
        simp at habs
      · intro hall
        rcases hfields with ⟨h1, _, _⟩
        exact ((hall a ha) h1).elim
    · rw [hres]
      constructor
      · intro habs
        simp at habs
      · rintro ⟨_, hno⟩
        rcases hfields with ⟨h1, h2, h3⟩
        exact (hno ⟨a, ha, h1, h2, h3⟩).elim

/-- Witness for C6: the holder `u1` (role `user`) releasing `W01`, which it
holds, succeeds. -/
theorem release_authorization_and_effect_witness :
    ∃ s, (releaseHandler "u1" "user" "W01" [seatA1]).1 = ReleaseResult.released s :=
  ((release_authorization_and_effect "u1" "user" "W01" [seatA1]).1
    (by decide)).mpr ⟨seatA1, by decide, rfl, rfl, rfl⟩

/-- A recruit (group) document (collection `Recruit`) with the fields the
join/approve routes and the socket handler read.  `rid` is the Mongo `_id`
as a hex string; `currentMembers` is the stored member counter the routes
maintain alongside the `members` array. -/
structure Recruit where
  rid : String
  author : String
  title : String
  status : String
  members : List String
  pendingMembers : List String
  currentMembers : Nat
  maxMembers : Nat
deriving DecidableEq, Repr

/-- Persisting `recruit.save()`: write the mutated document back over every stored
document with the same `_id` (ids are unique in the store). -/
def saveRecruit (store : List Recruit) (r : Recruit) : List Recruit :=
  store.map (fun x => if x.rid == r.rid then r else x)

/-- A socket.io emission: `io.to(room).emit(event, ...)`. -/
structure Emit where
  room : String
  event : String
deriving DecidableEq, Repr

theorem any_beq_iff_mem (l : List String) (a : String) :
    (l.any (fun i => i == a) = true) ↔ a ∈ l := by
  simp

/-- Outcome of `POST /:id/join` (src/backend/src/routes/recruits.ts). -/
inductive JoinResult where
  | notFound
  | closed
  | alreadyMember
  | alreadyPending
  | teamFull
  | ok
deriving DecidableEq, Repr

/-- Route `POST /:id/join`: reject when the recruit is missing, closed, the caller
is already a member or already pending, or the team is full; otherwise push
the caller onto `pendingMembers`, save, and emit a `recruit-application`
notification to the author's private room `user-<authorId>`. -/
def joinHandler (recruits : List Recruit) (uid rid : String) :
    JoinResult × List Recruit × List Emit :=
  match recruits.find? (fun r => r.rid == rid) with
  | none => (JoinResult.notFound, recruits, [])
  | some recruit =>
    if recruit.status == "closed" then
      (JoinResult.closed, recruits, [])
    else if recruit.members.any (fun i => i == uid) then
      (JoinResult.alreadyMember, recruits, [])
    else if recruit.pendingMembers.any (fun i => i == uid) then
      (JoinResult.alreadyPending, recruits, [])
    else if recruit.currentMembers ≥ recruit.maxMembers then
      (JoinResult.teamFull, recruits, [])
    else
      (JoinResult.ok,
        saveRecruit recruits
          { recruit with pendingMembers := recruit.pendingMembers ++ [uid] },
        [{ room := "user-" ++ recruit.author, event := "recruit-application" }])

/-- C7: the join-request gate.  With the recruit present, the request is
rejected exactly when the group is closed, the caller is already a member,
already pending, or the team is at capacity — each with its own typed
error, leaving the store unchanged and emitting nothing — and otherwise the
caller is appended to `pendingMembers` and a `recruit-application` event
goes to the author's private room. -/
theorem join_request_gate (recruits : List Recruit) (uid rid : String)
    (recruit : Recruit)
    (hfind : recruits.find? (fun r => r.rid == rid) = some recruit) :
    ((joinHandler recruits uid rid).1 ≠ JoinResult.ok ↔
      (recruit.status = "closed" ∨ uid ∈ recruit.members ∨
        uid ∈ recruit.pendingMembers ∨ recruit.maxMembers ≤ recruit.currentMembers)) ∧
    ((joinHandler recruits uid rid).1 = JoinResult.closed ↔
      recruit.status = "closed") ∧
    ((joinHandler recruits uid rid).1 = JoinResult.alreadyMember ↔
      (recruit.status ≠ "closed" ∧ uid ∈ recruit.members)) ∧
    ((joinHandler recruits uid rid).1 = JoinResult.alreadyPending ↔
      (recruit.status ≠ "closed" ∧ uid ∉ recruit.members ∧
        uid ∈ recruit.pendingMembers)) ∧
    ((joinHandler recruits uid rid).1 = JoinResult.teamFull ↔
      (recruit.status ≠ "closed" ∧ uid ∉ recruit.members ∧
        uid ∉ recruit.pendingMembers ∧
        recruit.maxMembers ≤ recruit.currentMembers)) ∧
    ((joinHandler recruits uid rid).1 ≠ JoinResult.ok →
      (joinHandler recruits uid rid).2.1 = recruits ∧
      (joinHandler recruits uid rid).2.2 = []) ∧
    ((joinHandler recruits uid rid).1 = JoinResult.ok →
      ({ recruit with pendingMembers := recruit.pendingMembers ++ [uid] }
          ∈ (joinHandler recruits uid rid).2.1 ∧
        { room := "user-" ++ recruit.author, event := "recruit-application" }
          ∈ (joinHandler recruits uid rid).2.2)) := by
  have hmem : recruit ∈ recruits := List.mem_of_find?_eq_some hfind
  by_cases h1 : recruit.status = "closed"
  · have hres : joinHandler recruits uid rid = (JoinResult.closed, recruits, []) := by
      simp [joinHandler, hfind, h1]
    simp [hres, h1]
  · by_cases h2 : uid ∈ recruit.members
    · have hres : joinHandler recruits uid rid =
          (JoinResult.alreadyMember, recruits, []) := by
        simp [joinHandler, hfind, h1, h2]
      simp [hres, h1, h2]
    · by_cases h3 : uid ∈ recruit.pendingMembers
      · have hres : joinHandler recruits uid rid =
            (JoinResult.alreadyPending, recruits, []) := by
          simp [joinHandler, hfind, h1, h2, h3]
        simp [hres, h1, h2, h3]
      · by_cases h4 : recruit.maxMembers ≤ recruit.currentMembers
        · have hres : joinHandler recruits uid rid =
              (JoinResult.teamFull, recruits, []) := by
            simp [joinHandler, hfind, h1, h2, h3, h4]
          simp [hres, h1, h2, h3, h4]
        · have hres : joinHandler recruits uid rid =
              (JoinResult.ok,
                saveRecruit recruits
                  { recruit with pendingMembers := recruit.pendingMembers ++ [uid] },
                [{ room := "user-" ++ recruit.author,
                   event := "recruit-application" }]) := by
            simp [joinHandler, hfind, h1, h2, h3, h4]
          refine ⟨by simp [hres, h1, h2, h3, h4], by simp [hres, h1],
            by simp [hres, h1, h2], by simp [hres, h2, h3], by simp [hres, h3, h4],
            by simp [hres], ?_⟩
          intro _
          constructor
          · have himg :
                (fun x => if x.rid ==
                    ({ recruit with
                        pendingMembers := recruit.pendingMembers ++ [uid] } : Recruit).rid
                  then ({ recruit with
                        pendingMembers := recruit.pendingMembers ++ [uid] } : Recruit)
                  else x) recruit =
                { recruit with pendingMembers := recruit.pendingMembers ++ [uid] } := by
              simp
            have hm := List.mem_map_of_mem
              (fun x => if x.rid ==
                  ({ recruit with
                      pendingMembers := recruit.pendingMembers ++ [uid] } : Recruit).rid
                then ({ recruit with
                      pendingMembers := recruit.pendingMembers ++ [uid] } : Recruit)
                else x) hmem
            rw [himg] at hm
            simpa [hres, saveRecruit] using hm
          · simp [hres]

/-- An open recruit `r1` authored by `a1` with room for more members (for
witnesses). -/
def demoRecruit : Recruit :=
  { rid := "r1", author := "a1", title := "team", status := "open",
    members := ["a1"], pendingMembers := [], currentMembers := 1, maxMembers := 3 }

/-- Witness for C7: `u2` asking to join the open, non-full `demoRecruit` is
queued in `pendingMembers` and the author is notified. -/
theorem join_request_gate_witness :
    { demoRecruit with pendingMembers := demoRecruit.pendingMembers ++ ["u2"] }
        ∈ (joinHandler [demoRecruit] "u2" "r1").2.1 ∧
    { room := "user-" ++ demoRecruit.author, event := "recruit-application" }
        ∈ (joinHandler [demoRecruit] "u2" "r1").2.2 := by
  have h := join_request_gate [demoRecruit] "u2" "r1" demoRecruit (by decide)
  exact h.2.2.2.2.2.2 (by decide)

/-- Outcome of `POST /:id/approve/:userId` (src/backend/src/routes/recruits.ts). -/
inductive ApproveResult where
  | notFound
  | notAuthorized
  | noPendingRequest
  | teamFull
  | approved
  | rejected
deriving DecidableEq, Repr

/-- Route `POST /:id/approve/:userId`: only the author may decide; the target must
be pending; the target is removed from `pendingMembers` unconditionally;
on approval with capacity exhausted the handler saves that removal and
returns the capacity error without adding the member; otherwise approval
appends the member and bumps the counter, rejection just keeps the removal,
and a `recruit-approval` notification goes to the target's private room. -/
def approveHandler (recruits : List Recruit) (actorId rid targetId : String)
    (approve : Bool) : ApproveResult × List Recruit × List Emit :=
  match recruits.find? (fun r => r.rid == rid) with
  | none => (ApproveResult.notFound, recruits, [])
  | some recruit =>
    if recruit.author != actorId then
      (ApproveResult.notAuthorized, recruits, [])
    else if !recruit.pendingMembers.any (fun i => i == targetId) then
      (ApproveResult.noPendingRequest, recruits, [])
    else
      let recruit1 :=
        { recruit with
          pendingMembers := recruit.pendingMembers.filter (fun i => !(i == targetId)) }
      if approve then
        if recruit1.currentMembers ≥ recruit1.maxMembers then
          (ApproveResult.teamFull, saveRecruit recruits recruit1, [])
        else
          (ApproveResult.approved,
            saveRecruit recruits
              { recruit1 with
                members := recruit1.members ++ [targetId]
                currentMembers := recruit1.currentMembers + 1 },
            [{ room := "user-" ++ targetId, event := "recruit-approval" }])
      else
        (ApproveResult.rejected, saveRecruit recruits recruit1,
          [{ room := "user-" ++ targetId, event := "recruit-approval" }])

/-- C4: approving a pending member of a full group removes the target from
`pendingMembers`, saves that removal, does not touch `members` or the
member counter, and returns the capacity error: in the resulting store
every document with the recruit's id — and one exists — has the target
gone from `pendingMembers` while `members` and `currentMembers` are those
of the original recruit. -/
theorem approve_at_capacity_commits_pending_removal (recruits : List Recruit)
    (actorId rid targetId : String) (recruit : Recruit)
    (hfind : recruits.find? (fun r => r.rid == rid) = some recruit)
    (hauthor : recruit.author = actorId)
    (hpending : targetId ∈ recruit.pendingMembers)
    (hfull : recruit.maxMembers ≤ recruit.currentMembers) :
    (approveHandler recruits actorId rid targetId true).1 = ApproveResult.teamFull ∧
    (∀ r1 ∈ (approveHandler recruits actorId rid targetId true).2.1,
      r1.rid = recruit.rid →
        (targetId ∉ r1.pendingMembers ∧ r1.members = recruit.members ∧
          r1.currentMembers = recruit.currentMembers)) ∧
    (∃ r1 ∈ (approveHandler recruits actorId rid targetId true).2.1,
      r1.rid = recruit.rid) ∧
    (approveHandler recruits actorId rid targetId true).2.2 = [] := by
  have hmem : recruit ∈ recruits := List.mem_of_find?_eq_some hfind
  have hres : approveHandler recruits actorId rid targetId true =
      (ApproveResult.teamFull,
        saveRecruit recruits
          { recruit with
            pendingMembers :=
              recruit.pendingMembers.filter (fun i => !(i == targetId)) },
        []) := by
    simp [approveHandler, hfind, hauthor, hpending, hfull]
  refine ⟨by simp [hres], ?_, ?_, by simp [hres]⟩
  · intro r1 hr1 hrid
    rw [hres] at hr1
    simp only [saveRecruit, List.mem_map] at hr1
    rcases hr1 with ⟨x, _, hx⟩
    by_cases hxid : (x.rid ==
        ({ recruit with
            pendingMembers :=
              recruit.pendingMembers.filter (fun i => !(i == targetId)) } : Recruit).rid)
    · rw [if_pos hxid] at hx
      subst hx
      refine ⟨?_, rfl, rfl⟩
      intro habs
      have := List.mem_filter.mp habs
      simp at this
    · rw [if_neg hxid] at hx
      subst hx
      exact absurd hrid (by simpa using hxid)
  · refine ⟨{ recruit with
        pendingMembers :=
          recruit.pendingMembers.filter (fun i => !(i == targetId)) }, ?_, rfl⟩
    rw [hres]
    have hm := List.mem_map_of_mem
      (fun x => if x.rid ==
          ({ recruit with
              pendingMembers :=
                recruit.pendingMembers.filter (fun i => !(i == targetId)) } : Recruit).rid
        then ({ recruit with
              pendingMembers :=
                recruit.pendingMembers.filter (fun i => !(i == targetId)) } : Recruit)
        else x) hmem
    simpa [saveRecruit] using hm

/-- A full recruit `r2` authored by `a1` with `u2` pending (for the C4
witness). -/
def fullRecruit : Recruit :=
  { rid := "r2", author := "a1", title := "team", status := "open",
    members := ["a1", "u3"], pendingMembers := ["u2"], currentMembers := 2,
    maxMembers := 2 }

/-- Witness for C4: approving pending `u2` on the full `fullRecruit` returns
the capacity error, and the stored document has `u2` dropped from
`pendingMembers` with members and counter unchanged. -/
theorem approve_at_capacity_commits_pending_removal_witness :
    (approveHandler [fullRecruit] "a1" "r2" "u2" true).1 = ApproveResult.teamFull ∧
    ∃ r1 ∈ (approveHandler [fullRecruit] "a1" "r2" "u2" true).2.1,
      r1.rid = fullRecruit.rid := by
  have h := approve_at_capacity_commits_pending_removal [fullRecruit] "a1" "r2" "u2"
    fullRecruit (by decide) rfl (by decide) (by decide)
  exact ⟨h.1, h.2.2.1⟩

/-- JavaScript `String.prototype.split` with a one-character separator, on
the character list: `"" -> [""]`, adjacent separators give empty pieces. -/
def splitChars (sep : Char) : List Char → List (List Char)
  | [] => [[]]
  | c :: rest =>
    if c == sep then [] :: splitChars sep rest
    else
      match splitChars sep rest with
      | [] => [[c]]
      | g :: gs => (c :: g) :: gs

/-- JavaScript `str.split(sep)` for a one-character separator. -/
def splitStr (sep : Char) (str : String) : List String :=
  (splitChars sep str.data).map (fun cs => String.mk cs)

/-- The projection of a decoded JSON object onto the only properties the
alternate auth middleware reads: `alg` on the header, `userId` and `role`
on the payload (a missing property reads as `none`). -/
structure JsObj where
  alg : Option String
  userId : Option String
  role : Option String
deriving DecidableEq, Repr

/-- Outcome of the alternate `authenticateToken` middleware: 401 for a
missing token, 403 for an invalid one, or `next()` with `req.userId` and
`req.userRole` bound. -/
inductive AuthOutcome where
  | missingToken
  | invalidToken
  | authenticated (userId : Option String) (role : Option String)
deriving DecidableEq, Repr

/-- The alternate `authenticateToken` (second variant in
src/backend/src/middleware/auth.ts): take the token after the first space
of the `Authorization` header, split it on dots, require three parts,
base64-decode and JSON-parse the first two (`decodeB64Json` stands for that
external `Buffer.from`/`JSON.parse` pipeline), and — when the header's
`alg` is `'none'` — bind `req.userId`/`req.userRole` straight from the
decoded payload; only otherwise is `jwt.verify` (`verify`) consulted. -/
def authenticateTokenAlt (decodeB64Json : String → Option JsObj)
    (verify : String → Option JsObj) (authHeader : Option String) : AuthOutcome :=
  match authHeader with
  | none => AuthOutcome.missingToken
  | some h =>
    match (splitStr ' ' h).get? 1 with
    | none => AuthOutcome.missingToken
    | some token =>
      if token == "" then AuthOutcome.missingToken
      else
        let parts := splitStr '.' token
        if parts.length != 3 then AuthOutcome.invalidToken
        else
          match decodeB64Json (parts.getD 0 ""), decodeB64Json (parts.getD 1 "") with
          | some header, some payload =>
            if header.alg == some "none" then
              AuthOutcome.authenticated payload.userId payload.role
            else
              match verify token with
              | some decoded => AuthOutcome.authenticated decoded.userId decoded.role
              | none => AuthOutcome.invalidToken
          | some _, none => AuthOutcome.invalidToken
          | none, _ => AuthOutcome.invalidToken

/-- C9: for every three-part token whose decoded header carries
`alg = 'none'` and whose payload decodes, the alternate middleware
authenticates the request with `userId` and `role` read straight from the
unverified payload, and the result is the same under any two verification
oracles — the signature is never checked, so any caller can pick any
identity and any role. -/
theorem auth_alg_none_bypasses_verification (decodeB64Json : String → Option JsObj)
    (verify1 verify2 : String → Option JsObj) (h token : String)
    (header payload : JsObj)
    (htok : (splitStr ' ' h).get? 1 = some token)
    (hne : token ≠ "")
    (hlen : (splitStr '.' token).length = 3)
    (hhdr : decodeB64Json ((splitStr '.' token).getD 0 "") = some header)
    (halg : header.alg = some "none")
    (hpay : decodeB64Json ((splitStr '.' token).getD 1 "") = some payload) :
    authenticateTokenAlt decodeB64Json verify1 (some h) =
      AuthOutcome.authenticated payload.userId payload.role ∧
    authenticateTokenAlt decodeB64Json verify1 (some h) =
      authenticateTokenAlt decodeB64Json verify2 (some h) := by
  have hres : ∀ verify : String → Option JsObj,
      authenticateTokenAlt decodeB64Json verify (some h) =
        AuthOutcome.authenticated payload.userId payload.role := by
    intro verify
    have htok' : (splitStr ' ' h)[1]? = some token := by
      simpa [List.get?_eq_getElem?] using htok
    rcases hl : splitStr '.' token with _ | ⟨a, _ | ⟨b, _ | ⟨c, rest⟩⟩⟩
    · rw [hl] at hlen
      simp at hlen
    · rw [hl] at hlen
      simp at hlen
    · rw [hl] at hlen
      simp at hlen
    · rw [hl] at hlen hhdr hpay
      have hrest : rest = [] := by simpa using hlen
      subst hrest
      simp [List.getD] at hhdr hpay
      simp [authenticateTokenAlt, htok', hne, hl, hhdr, halg, hpay]
  exact ⟨hres verify1, (hres verify1).trans (hres verify2).symm⟩

/-- A concrete decoder for the C9 witness: `"hdr"` decodes to a header with
`alg = 'none'`, `"pay"` to a payload claiming user `anyUser` with role
`admin`. -/
def demoDecode : String → Option JsObj :=
  fun str =>
    if str == "hdr" then some { alg := some "none", userId := none, role := none }
    else if str == "pay" then
      some { alg := none, userId := some "anyUser", role := some "admin" }
    else none

/-- Witness for C9: the header `Bearer hdr.pay.sig` authenticates as
`anyUser`/`admin` both under a verifier that rejects everything and under
one that would report a different user — the verifier is irrelevant. -/
theorem auth_alg_none_bypasses_verification_witness :
    authenticateTokenAlt demoDecode (fun _ => none) (some "Bearer hdr.pay.sig") =
      AuthOutcome.authenticated (some "anyUser") (some "admin") ∧
    authenticateTokenAlt demoDecode (fun _ => none) (some "Bearer hdr.pay.sig") =
      authenticateTokenAlt demoDecode
        (fun _ => some { alg := none, userId := some "other", role := some "user" })
        (some "Bearer hdr.pay.sig") := by
  have h := auth_alg_none_bypasses_verification demoDecode (fun _ => none)
    (fun _ => some { alg := none, userId := some "other", role := some "user" })
    "Bearer hdr.pay.sig" "hdr.pay.sig"
    { alg := some "none", userId := none, role := none }
    { alg := none, userId := some "anyUser", role := some "admin" }
    (by decide) (by decide) (by decide) (by decide) rfl (by decide)
  exact h

/-- One element of the `users` array in the `GET /check-reservation`
response body: reservation status together with the stored account fields
the route selects, including the password hash and the plaintext
password. -/
structure ReservationEntry where
  username : String
  email : String
  password : String
  plaintextPassword : String
  role : String
  hasReservation : Bool
  seatNumber : Option String
deriving DecidableEq, Repr

/-- Outcome of `GET /check-reservation`. -/
inductive CheckReservationResult where
  | missingUsername
  | noUsersFound
  | ok (users : List ReservationEntry)
deriving DecidableEq, Repr

/-- The per-user projection the route builds: look up the user's active
seat and return the selected account fields plus the reservation status. -/
def userReservationEntry (seats : SeatStore) (u : User) : ReservationEntry :=
  let seat := seats.find? (fun s => s.currentUser == some u.uid && !s.isAvailable)
  { username := u.username
    email := u.email
    password := u.password
    plaintextPassword := u.plaintextPassword
    role := u.role
    hasReservation := seat.isSome
    seatNumber := seat.map (fun s => s.seatNumber) }

/-- Route `GET /check-reservation` (src/backend/src/routes/seats.ts): require a
`username` query, `find` the users with that username with `limit(20)` and
`select` including `+plaintextPassword`, and answer with one
`ReservationEntry` per matched user. -/
def checkReservation (users : List User) (seats : SeatStore)
    (uname? : Option String) : CheckReservationResult :=
  match uname? with
  | none => CheckReservationResult.missingUsername
  | some uname =>
    let matched := (users.filter (fun u => u.username == uname)).take 20
    if matched.isEmpty then CheckReservationResult.noUsersFound
    else CheckReservationResult.ok (matched.map (userReservationEntry seats))

/-- C10: for an authenticated `check-reservation` request with a username
matching at least one stored user, the response carries one entry per
matching user (at most 20), and for every matched user some entry exposes
that user's stored email, password hash and `plaintextPassword` verbatim
alongside the reservation status — the response embeds other accounts'
stored secrets. -/
theorem check_reservation_exposes_secrets (users : List User) (seats : SeatStore)
    (uname : String)
    (hne : (users.filter (fun u => u.username == uname)).take 20 ≠ []) :
    ∃ entries, checkReservation users seats (some uname) =
        CheckReservationResult.ok entries ∧
      entries.length = ((users.filter (fun u => u.username == uname)).take 20).length ∧
      entries.length ≤ 20 ∧
      ∀ u ∈ (users.filter (fun u => u.username == uname)).take 20,
        ∃ e ∈ entries, e.username = u.username ∧ e.email = u.email ∧
          e.password = u.password ∧ e.plaintextPassword = u.plaintextPassword ∧
          e.role = u.role := by
  refine ⟨((users.filter (fun u => u.username == uname)).take 20).map
    (userReservationEntry seats), ?_, ?_, ?_, ?_⟩
  · simp only [checkReservation]
    rw [if_neg (by simpa [List.isEmpty_iff] using hne)]
  · simp
  · calc (((users.filter (fun u => u.username == uname)).take 20).map
        (userReservationEntry seats)).length
        = ((users.filter (fun u => u.username == uname)).take 20).length := by simp
      _ ≤ 20 :=
        List.length_take_le 20 (users.filter (fun u => u.username == uname))
  · intro u hu
    exact ⟨userReservationEntry seats u, List.mem_map_of_mem _ hu,
      rfl, rfl, rfl, rfl, rfl⟩

/-- Witness for C10: with `dongoUser` stored, the query for its username
returns an entry carrying its email, bcrypt hash and plaintext password. -/
theorem check_reservation_exposes_secrets_witness :
    ∃ entries, checkReservation [dongoUser] [] (some "D5ngo2s_ID") =
        CheckReservationResult.ok entries ∧
      ∃ e ∈ entries, e.password = dongoUser.password ∧
        e.plaintextPassword = dongoUser.plaintextPassword := by
  rcases check_reservation_exposes_secrets [dongoUser] [] "D5ngo2s_ID" (by decide)
    with ⟨entries, hok, _, _, hall⟩
  rcases hall dongoUser (by decide) with ⟨e, he, _, _, hpw, hpp, _⟩
  exact ⟨entries, hok, e, he, hpw, hpp⟩
